import Mathlib

/-!
# GitLG — verification of the extension bridge and the git-log request handler

Shallow embedding of the two source files of the repository:

* `src/unnamed/part_000` — the extension entry file; of interest here are the
  `git-log` request handler (built-up git command strings, the `Promise.all`
  join of the three raw text inputs, the short-circuit on empty log text, the
  invocation of `parse`) and the response helper `h`.
* `src/web/src/bridge.js` — the webview side of the message bridge:
  `exchange_message`, the message-id counter, the registry of response
  handlers and the window message listener.

The log-parser module itself (`parse`) is not part of the sources; the
handler claims treat it as an abstract function argument, and the claims
about its internals are settled against a definition modelled from the spec.

JavaScript async control flow is embedded in the `Except` monad: a rejected
promise is `.error`, `await` is monadic bind, `Promise.all` is the sequential
join of the three `Except` values (adequate here because the external command
runner is modelled as a deterministic oracle `run : String → Except String
String`).  JS string truthiness (`if (log_data)`) becomes an explicit
emptiness test.
-/

/-! ## Data model shared by handler and parse (spec §3) -/

/-- Ref kind, spec §3: one of local-branch, remote-branch, tag, stash,
head-pointer. -/
inductive RefKind where
  | local_branch
  | remote_branch
  | tag
  | stash
  | head_pointer
deriving DecidableEq, Repr

/-- A ref: display name, owning remote (empty if local-only), kind. -/
structure Ref where
  name : String
  remote : String
  kind : RefKind
deriving DecidableEq, Repr

/-- A commit record as produced by the log-parsing core (spec §3). -/
structure CommitRecord where
  hash : String
  short_hash : String
  author_name : String
  author_email : String
  author_date : String
  subject : String
  decorations : List Ref
  lane : Nat
  parent_lanes : List Nat
  is_stash : Bool
deriving DecidableEq, Repr

/-- The `{ commits, refs }` structure returned by `parse` and by the
`git-log` request handler. -/
structure Parsed where
  commits : List CommitRecord
  refs : List Ref
deriving DecidableEq, Repr

/-! ## JS string primitives

The JS string methods the sources use, re-implemented by structural
recursion over the character list so that every proof obligation on
concrete strings reduces in the kernel.  Note that JS
`String.prototype.replace` with a string pattern replaces only the FIRST
occurrence. -/

/-- Replace the first occurrence of `pat` (non-empty) in a character list. -/
def replace_go (pat repl : List Char) : List Char → List Char
  | [] => []
  | c :: rest =>
    if pat.isPrefixOf (c :: rest) then repl ++ (c :: rest).drop pat.length
    else c :: replace_go pat repl rest

/-- JS `s.replace(pat, repl)` with a string pattern: the first occurrence
of `pat` is replaced; `s` is unchanged when `pat` does not occur (an empty
pattern matches at the start). -/
def js_replace (s pat repl : String) : String :=
  if pat = "" then String.mk (repl.data ++ s.data)
  else String.mk (replace_go pat.data repl.data s.data)

/-- Left-to-right occurrence split on a non-empty pattern; `fuel` bounds
the recursion and is instantiated with the string length, which suffices
because every step consumes at least one character. -/
def split_go (pat : List Char) : Nat → List Char → List Char → List (List Char)
  | _, [], acc => [acc.reverse]
  | 0, s, acc => [acc.reverse ++ s]
  | fuel + 1, c :: rest, acc =>
    if pat.isPrefixOf (c :: rest) then
      acc.reverse :: split_go pat fuel ((c :: rest).drop pat.length) []
    else
      split_go pat fuel rest (c :: acc)

/-- Split a string on every occurrence of a pattern (JS `String.split`
with a string separator; Lean's `String.splitOn`). -/
def split_on_str (s pat : String) : List String :=
  if pat = "" then [s]
  else (split_go pat.data s.data.length s.data []).map String.mk

/-- `s.startsWith(pre)`. -/
def starts_with (s pre : String) : Bool :=
  pre.data.isPrefixOf s.data

/-- JS `s.replaceAll('\n', ' ')` (part_000 line 195); with a
single-character pattern and replacement this is a character-wise map. -/
def newlines_to_spaces (s : String) : String :=
  String.mk (s.data.map (fun c => if c = '\n' then ' ' else c))

/-! ## The git-log request handler (part_000 lines 188–207) -/

/-- The separator token: `let sep = '^%^%^%^%^'` (part_000 line 190). -/
def SEP : String := "^%^%^%^%^"

/-- The pretty-format body interpolated at part_000 line 191:
`${sep}%H${sep}%h${sep}%aN${sep}%aE${sep}%ad${sep}%D${sep}%s`. -/
def ext_format (sep : String) : String :=
  sep ++ "%H" ++ sep ++ "%h" ++ sep ++ "%aN" ++ sep ++ "%aE" ++ sep ++ "%ad"
    ++ sep ++ "%D" ++ sep ++ "%s"

/-- `args.replace(' --pretty={EXT_FORMAT}', ` --pretty=format:"..."`)`
(part_000 line 191). -/
def substitute_pretty (args sep : String) : String :=
  js_replace args " --pretty={EXT_FORMAT}"
    (" --pretty=format:\"" ++ ext_format sep ++ "\"")

/-- The branch listing command built at part_000 line 198:
`branch --list --all --format="%(upstream:remotename)${sep}%(refname)"`. -/
def branch_list_cmd (sep : String) : String :=
  "branch --list --all --format=\"%(upstream:remotename)" ++ sep
    ++ "%(refname)\""

/-- `stash list --format="%h"` (part_000 line 194). -/
def stash_hashes_cmd : String := "stash list --format=\"%h\""

/-- `stash list --format="%h %gd"` (part_000 line 199). -/
def stash_list_cmd : String := "stash list --format=\"%h %gd\""

/-- The final argument string handed to `git.run` for the history listing:
pretty-format substituted, then `{STASH_REFS}` replaced with the
newline-to-space-joined stash hashes (part_000 lines 191–195). -/
def final_log_args (args stash_refs : String) : String :=
  js_replace (substitute_pretty args SEP) "{STASH_REFS}"
    (newlines_to_spaces stash_refs)

/-- The three raw text inputs as joined by `await Promise.all` at part_000
lines 196–200: history log (`git.run(args)`), branch listing
(`fetch_branches ? git.run(branch --list ...) : ''`) and stash listing
(`git.run(stash list ...).catch(() => '')`), preceded by the optional
`stash list --format="%h"` fetch of lines 192–194.  A rejection of the log
or branch command rejects the whole join; the stash command's rejection is
caught and replaced by the empty string. -/
def awaited_inputs (run : String → Except String String) (args : String)
    (fetch_stash_refs fetch_branches : Bool) :
    Except String (String × String × String) :=
  (if fetch_stash_refs then run stash_hashes_cmd else pure "") >>=
    fun stash_refs =>
  run (final_log_args args stash_refs) >>= fun log_data =>
  (if fetch_branches then run (branch_list_cmd SEP) else pure "") >>=
    fun branch_data =>
  pure (log_data, branch_data, ((run stash_list_cmd).toOption).getD "")

/-- Part_000 lines 201–204: `let parsed = { commits: [], refs: [] }; if
(log_data) parsed = parse(log_data, branch_data, stash_data, sep,
curve_radius)`.  `parse_fn` abstracts the `parse` import (the log-parser
module is not among the sources). -/
def git_log_core (parse_fn : String → String → String → String → Int → Parsed)
    (log_data branch_data stash_data sep : String) (curve_radius : Int) :
    Parsed :=
  if log_data = "" then { commits := [], refs := [] }
  else parse_fn log_data branch_data stash_data sep curve_radius

/-- The whole `git-log` request handler body (part_000 lines 188–206):
gather the three inputs, then run the empty-check / parse step and return
the result to the requester. -/
def git_log_handler
    (parse_fn : String → String → String → String → Int → Parsed)
    (run : String → Except String String) (args : String)
    (fetch_stash_refs fetch_branches : Bool) (curve_radius : Int) :
    Except String Parsed :=
  awaited_inputs run args fetch_stash_refs fetch_branches >>= fun t =>
  pure (git_log_core parse_fn t.1 t.2.1 t.2.2 SEP curve_radius)

/-! ## The webview message bridge (src/web/src/bridge.js) -/

/-- A thrown JavaScript error value; `message` may be the empty string
(which is falsy in JS). -/
structure JSError where
  message : String
deriving DecidableEq, Repr

/-- `error.message || error` (part_000 line 164): the message when truthy
(non-empty), otherwise the error value itself. -/
def error_payload (e : JSError) : String ⊕ JSError :=
  if e.message = "" then Sum.inr e else Sum.inl e.message

/-- A `response-to-web` bridge message as seen by the webview: the request
id it answers, its payload, the optional `error`, `chunk` and
`total_chunks` fields.  Payloads are modelled as lists of strings so that
the chunk-concatenation path of the listener is expressible. -/
structure RespMessage where
  id : Nat
  data : Option (List String) := none
  error : Option (String ⊕ JSError) := none
  chunk : Option Nat := none
  total_chunks : Option Nat := none
deriving DecidableEq, Repr

/-- State of the bridge module (bridge.js lines 3–10): the message id
counter, the registry of response handlers keyed by message id, and the
chunk accumulator.  Handlers are modelled as tokens (`Nat`): the model
records which handler fires, not what it does. -/
structure BridgeState where
  message_id_counter : Nat
  response_handlers : List (Nat × Nat)
  response_chunks : List (Nat × List String)
deriving DecidableEq, Repr

/-- Removal of a key from a JS-object-as-map (`delete obj[k]`). -/
def map_erase {β : Type} (m : List (Nat × β)) (k : Nat) : List (Nat × β) :=
  m.filter (fun p => p.1 ≠ k)

/-- Assignment `obj[k] = v` on a JS-object-as-map. -/
def map_insert {β : Type} (m : List (Nat × β)) (k : Nat) (v : β) :
    List (Nat × β) :=
  (k, v) :: map_erase m k

/-- JS truthiness of `message.chunk` (bridge.js line 22): absent and 0 are
falsy. -/
def chunk_truthy : Option Nat → Bool
  | none => false
  | some c => c ≠ 0

/-- One delivery of a `response-to-web` message to the window message
listener (bridge.js lines 18–33).  Returns the new bridge state and, when
the registered handler fired, the handler token with the message it
received (whose `data` is the chunk accumulation when the message was the
final chunk); `.error` models the thrown
`unhandled message response id` exception. -/
def handle_response (s : BridgeState) (m : RespMessage) :
    Except String (BridgeState × Option (Nat × RespMessage)) :=
  match (s.response_handlers).lookup m.id with
  | none => Except.error ("unhandled message response id: " ++ toString m.id)
  | some handler =>
    if chunk_truthy m.chunk then
      let acc := ((s.response_chunks).lookup m.id).getD [] ++ (m.data).getD []
      if m.chunk = m.total_chunks then
        Except.ok
          ({ s with
              response_chunks := map_erase s.response_chunks m.id,
              response_handlers := map_erase s.response_handlers m.id },
            some (handler, { m with data := some acc }))
      else
        Except.ok
          ({ s with response_chunks := map_insert s.response_chunks m.id acc },
            none)
    else
      Except.ok
        ({ s with response_handlers := map_erase s.response_handlers m.id },
          some (handler, m))

/-- The synchronous prefix of `exchange_message` (bridge.js lines 44–51):
increment the id counter, post the request carrying the new counter value
as id, and register the resolver under that id.  Returns the new state and
the posted request's id.  The registration is part of the same step because
the promise executor runs synchronously, before any further message event
can be dispatched. -/
def exchange_send (s : BridgeState) (handler : Nat) : BridgeState × Nat :=
  let id := s.message_id_counter + 1
  ({ message_id_counter := id,
     response_handlers := map_insert s.response_handlers id handler,
     response_chunks := s.response_chunks }, id)

/-- An observable event at the bridge: a new `exchange_message` call
(registering `handler`) or the arrival of a `response-to-web` message. -/
inductive BridgeEvent where
  | send (handler : Nat)
  | deliver (m : RespMessage)
deriving DecidableEq, Repr

/-- One bridge event step; a `deliver` whose listener throws leaves the
state unchanged (the exception is raised before any mutation).  The second
component is the id assigned when the event was a send. -/
def bridge_step (s : BridgeState) (e : BridgeEvent) : BridgeState × Option Nat :=
  match e with
  | BridgeEvent.send h =>
    let r := exchange_send s h
    (r.1, some r.2)
  | BridgeEvent.deliver m =>
    match handle_response s m with
    | Except.ok r => (r.1, none)
    | Except.error _ => (s, none)

/-- Run a sequence of bridge events, collecting the ids assigned to the
requests sent along the way. -/
def bridge_run (s : BridgeState) : List BridgeEvent → BridgeState × List Nat
  | [] => (s, [])
  | e :: es =>
    let r := bridge_step s e
    let rest := bridge_run r.1 es
    (rest.1, (r.2.toList) ++ rest.2)

/-- The resolution step of `exchange_message` (bridge.js lines 55–64): once
the matching response has arrived, throw when `resp.error` is truthy
(carrying the error payload as `message_error_response`), otherwise resolve
with `resp.data`. -/
def exchange_resolve (resp : RespMessage) :
    Except (String ⊕ JSError) (Option (List String)) :=
  match resp.error with
  | some v =>
    if v = Sum.inl "" then Except.ok resp.data else Except.error v
  | none => Except.ok resp.data

/-- The response helper `h` of part_000 (lines 151–181), applied to a
request id and the outcome of the command's function: the list of messages
it hands to `post_message`.  On success the response carries the result and
no error field; on a thrown error it carries `error.message || error` and
its data stays `undefined`. -/
def h_posts (message_id : Nat) (func : Except JSError (List String)) :
    List RespMessage :=
  let resp : RespMessage := { id := message_id }
  let step : RespMessage × Option (List String) :=
    match func with
    | Except.ok d => (resp, some d)
    | Except.error e => ({ resp with error := some (error_payload e) }, none)
  [{ step.1 with data := step.2 }]

/-! ## The log-parsing core, modelled from the spec

The log-parser module (`parse` and its sub-components, spec §4) is imported
by part_000 but its source is not part of the repository; the following
definitions model it from the spec. -/

/-- One split log record: the graph-glyph column and the seven data fields
of spec §4.1. -/
structure FieldRecord where
  glyphs : String
  hash : String
  short_hash : String
  author_name : String
  author_email : String
  author_date : String
  decoration : String
  subject : String
deriving DecidableEq, Repr

/-- Modelled from the spec: the Field Splitter of the missing log-parser
module (spec §4.1).  Given one raw line and the separator token it returns
the glyph column and the ordered 7 fields; the subject is the entire
remainder of the line after the 6th separator, never further split.  A line
with fewer separators is not a data row and yields `none`. -/
def field_split (line sep : String) : Option FieldRecord :=
  match split_on_str line sep with
  | glyphs :: h :: sh :: an :: ae :: ad :: deco :: s0 :: srest =>
    some ⟨glyphs, h, sh, an, ae, ad, deco, String.intercalate sep (s0 :: srest)⟩
  | _ => none

/-- Modelled from the spec: one line of the Ref Correlator of the missing
log-parser module (spec §4.2).  Each line holds `<remote><delim><refname>`;
a non-empty remote classifies the ref as remote-branch, otherwise the
refname's namespace prefix classifies it as local-branch (`refs/heads/`),
tag (`refs/tags/`) or head-pointer.  The record delimiter is the caller's
separator token, which is what the handler's branch format interpolates
(part_000 line 198). -/
def ref_line (delim line : String) : Option Ref :=
  match split_on_str line delim with
  | [remote, refname] =>
    if remote ≠ "" then
      some { name := js_replace refname "refs/remotes/" "",
             remote := remote, kind := RefKind.remote_branch }
    else if starts_with refname "refs/heads/" then
      some { name := js_replace refname "refs/heads/" "",
             remote := "", kind := RefKind.local_branch }
    else if starts_with refname "refs/tags/" then
      some { name := js_replace refname "refs/tags/" "",
             remote := "", kind := RefKind.tag }
    else if refname = "HEAD" then
      some { name := refname, remote := "", kind := RefKind.head_pointer }
    else
      some { name := refname, remote := "", kind := RefKind.local_branch }
  | _ => none

/-- Modelled from the spec: the Ref Correlator's output mapping from short
display name to Ref metadata (spec §4.2). -/
def ref_mapping (delim text : String) : List (String × Ref) :=
  ((split_on_str text "\n").filterMap (ref_line delim)).map (fun r => (r.name, r))

/-- Modelled from the spec: the Stash Correlator of the missing log-parser
module (spec §4.3).  Input: lines of `<short-hash> <stash-slot-name>`,
space-delimited; output: mapping short-hash → slot name.  Empty input
yields an empty mapping, never an error. -/
def stash_mapping (text : String) : List (String × String) :=
  (split_on_str text "\n").filterMap (fun line =>
    match split_on_str line " " with
    | hash :: slot0 :: slots =>
      some (hash, String.intercalate " " (slot0 :: slots))
    | _ => none)

/-- Grow-and-set on a lane track: extend with empty slots so index `i`
exists, then write `v` there. -/
def set_slot (t : List (Option String)) (i : Nat) (v : Option String) :
    List (Option String) :=
  (t ++ List.replicate (i + 1 - t.length) none).set i v

/-- The next unused column index of a lane track (leftmost empty slot, or a
fresh column at the right end). -/
def first_free (t : List (Option String)) : Nat :=
  (t.findIdx? (fun s => s.isNone)).getD t.length

/-- Allocate `n` fresh lanes for the extra parents of a merge commit,
each at the next unused column index. -/
def alloc_lanes (t : List (Option String)) (hash : String) :
    Nat → List (Option String) × List Nat
  | 0 => (t, [])
  | n + 1 =>
    let i := first_free t
    let rest := alloc_lanes (set_slot t i (some hash)) hash n
    (rest.1, i :: rest.2)

/-- Modelled from the spec: one Graph Glyph Tracker step of the missing
log-parser module (spec §4.4).  Slots whose column no glyph of this row
references are retired; the commit-marker glyph `*` at column i assigns the
row's primary lane i; each diagonal glyph after the marker signals an
additional parent and allocates the next unused column; the returned triple
is the updated track, the primary lane and the row's parent lanes. -/
def track_row (t : List (Option String)) (rec : FieldRecord) :
    List (Option String) × Nat × List Nat :=
  let glyphs := rec.glyphs.toList
  let t0 := (List.range (max t.length glyphs.length)).map (fun i =>
    if glyphs.getD i ' ' = ' ' then none else t.getD i none)
  let lane := (glyphs.findIdx? (fun c => c == '*')).getD 0
  let t1 := set_slot t0 lane (some rec.hash)
  let diags := (glyphs.drop (lane + 1)).countP (fun c => c == '/' || c == '\\')
  let alloc := alloc_lanes t1 rec.hash diags
  (alloc.1, lane, lane :: alloc.2)

/-- Modelled from the spec: decoration resolution of the missing log-parser
module (spec §4.2, §4.5): each name of the comma-separated decoration field
is matched against the Ref Correlator's mapping; an unmatched decoration
defaults to local-branch kind with empty remote (tags and HEAD are
recognised by their own markers). -/
def parse_decorations (refs : List (String × Ref)) (deco : String) :
    List Ref :=
  if deco = "" then []
  else (split_on_str deco ", ").map (fun d =>
    let name := js_replace d "HEAD -> " ""
    match refs.lookup name with
    | some r => r
    | none =>
      if starts_with name "tag: " then
        { name := js_replace name "tag: " "", remote := "", kind := RefKind.tag }
      else if name = "HEAD" then
        { name := name, remote := "", kind := RefKind.head_pointer }
      else
        { name := name, remote := "", kind := RefKind.local_branch })

/-- Modelled from the spec: the Commit Assembler of the missing log-parser
module (spec §4.5): combines one field record with its row's lane
assignment and parent lanes, resolves the decorations, and checks the short
hash against the stash mapping to set `is_stash` and append a synthetic
stash-kind decoration when matched. -/
def assemble (refs : List (String × Ref)) (stashes : List (String × String))
    (rec : FieldRecord) (lane : Nat) (parent_lanes : List Nat) :
    CommitRecord :=
  let decos := parse_decorations refs rec.decoration
  match stashes.lookup rec.short_hash with
  | some slot =>
    { hash := rec.hash, short_hash := rec.short_hash,
      author_name := rec.author_name, author_email := rec.author_email,
      author_date := rec.author_date, subject := rec.subject,
      decorations := decos ++ [⟨slot, "", RefKind.stash⟩],
      lane := lane, parent_lanes := parent_lanes, is_stash := true }
  | none =>
    { hash := rec.hash, short_hash := rec.short_hash,
      author_name := rec.author_name, author_email := rec.author_email,
      author_date := rec.author_date, subject := rec.subject,
      decorations := decos, lane := lane, parent_lanes := parent_lanes,
      is_stash := false }

/-- Modelled from the spec: the Parse Orchestrator of the missing
log-parser module (spec §4.7) — the public operation
`parse(log_text, branch_text, stash_text, separator, curve_radius)`.
Empty log text short-circuits to the empty result; otherwise the three
inputs run through the correlators, the field splitter (malformed lines
skipped) and the glyph tracker, starting from a fresh, call-local
LaneTrack (spec §5: no state survives between calls; the curvature radius
only parameterizes edge geometry, which is not part of the returned
structure per §3/§4.7). -/
def parse (log_text branch_text stash_text sep : String)
    (curve_radius : Int) : Parsed :=
  if log_text = "" then { commits := [], refs := [] }
  else
    let refs := ref_mapping sep branch_text
    let stashes := stash_mapping stash_text
    let rows := (split_on_str log_text "\n").filterMap (fun l => field_split l sep)
    let fold := rows.foldl (fun acc rec =>
      let step := track_row acc.1 rec
      (step.1, acc.2 ++ [assemble refs stashes rec step.2.1 step.2.2]))
      (([] : List (Option String)), ([] : List CommitRecord))
    { commits := fold.2, refs := refs.map Prod.snd }

/-- The argument tuple of one `parse` call. -/
structure ParseArgs where
  log_text : String
  branch_text : String
  stash_text : String
  sep : String
  curve_radius : Int
deriving DecidableEq, Repr

/-- One `parse` call on an argument tuple. -/
def parse_call (a : ParseArgs) : Parsed :=
  parse a.log_text a.branch_text a.stash_text a.sep a.curve_radius

/-- A sequence of `parse` calls, in order; spec §5: each call owns a fresh
LaneTrack and there is no cross-call state to thread. -/
def parse_calls (calls : List ParseArgs) : List Parsed :=
  calls.map parse_call

/-- An oracle equal to `run` except that command `c` yields `res`; used to
compare handler behaviour under different outcomes of one command. -/
def override (run : String → Except String String) (c : String)
    (res : Except String String) : String → Except String String :=
  fun cmd => if cmd = c then res else run cmd

/-! ## Theorems -/

lemma except_bind_congr {ε α β : Type} (x : Except ε α)
    (f g : α → Except ε β) (h : ∀ a, f a = g a) : x >>= f = x >>= g := by
  cases x with
  | error e => rfl
  | ok a => exact h a

/-- The joined inputs do not depend on how the stash-listing command
fails or succeeds with empty output, as long as the other three commands
are distinct from it. -/
lemma awaited_inputs_congr (run₁ run₂ : String → Except String String)
    (args : String) (fsr fb : Bool)
    (hoff : ∀ c, c ≠ stash_list_cmd → run₁ c = run₂ c)
    (hst : (run₁ stash_list_cmd).toOption.getD "" =
      (run₂ stash_list_cmd).toOption.getD "")
    (hargs : ∀ sr, final_log_args args sr ≠ stash_list_cmd) :
    awaited_inputs run₁ args fsr fb = awaited_inputs run₂ args fsr fb := by
  unfold awaited_inputs
  rw [hoff stash_hashes_cmd (by decide)]
  apply except_bind_congr
  intro sr
  rw [hoff _ (hargs sr)]
  apply except_bind_congr
  intro log_data
  rw [hoff _ (by decide : branch_list_cmd SEP ≠ stash_list_cmd)]
  apply except_bind_congr
  intro branch_data
  rw [hst]

/-- C1: in the `git-log` request handler, empty history-listing output
returns `{ commits: [], refs: [] }` without invoking the parse sub-parser:
the empty-log step yields the empty structure for every possible parse
function, and so does the whole handler whenever the awaited log text is
empty. -/
theorem git_log_empty_short_circuit :
    ∀ (f : String → String → String → String → Int → Parsed)
      (run : String → Except String String) (args : String)
      (fsr fb : Bool) (r : Int) (b s : String),
      git_log_core f "" b s SEP r = { commits := [], refs := [] } ∧
      (awaited_inputs run args fsr fb = Except.ok ("", b, s) →
        git_log_handler f run args fsr fb r =
          Except.ok { commits := [], refs := [] }) := by
  intro f run args fsr fb r b s
  refine ⟨rfl, fun h => ?_⟩
  simp [git_log_handler, h, git_log_core]

/-- C1 witness: a concrete oracle whose history command returns empty text
makes the handler return the empty structure, for a parse function that
would return something else on any input. -/
theorem git_log_empty_short_circuit_holds :
    git_log_handler (fun l _ _ _ _ =>
        { commits := [], refs := [⟨l, "", RefKind.tag⟩] })
      (fun _ => Except.ok "") "x" false false 0 =
      Except.ok { commits := [], refs := [] } :=
  (git_log_empty_short_circuit
    (fun l _ _ _ _ => { commits := [], refs := [⟨l, "", RefKind.tag⟩] })
    (fun _ => Except.ok "") "x" false false 0 "" "").2 (by rfl)

/-- C2 counterexample: the record delimiter between the remote-name field
and the ref-name field of the branch listing command the handler builds is
the separator token SEP itself — no token distinct from SEP fits the
command string. -/
theorem branch_delim_not_distinct :
    ¬ ∃ sep2 : String, sep2 ≠ SEP ∧
      branch_list_cmd SEP =
        "branch --list --all --format=\"%(upstream:remotename)" ++ sep2
          ++ "%(refname)\"" := by
  rintro ⟨sep2, hne, heq⟩
  apply hne
  have h2 := congrArg String.data heq
  simp only [branch_list_cmd, String.data_append, List.append_assoc] at h2
  have h3 := List.append_cancel_left h2
  have h4 := List.append_cancel_right h3
  exact congrArg String.mk h4.symm

/-- C2 amended: each branch listing line holds the remote name and the ref
name joined by the SAME separator token SEP that the log lines use:
splitting the branch listing command the handler builds on SEP isolates
exactly the remote-name format field and the ref-name format field. -/
theorem branch_delim_is_sep :
    split_on_str (branch_list_cmd SEP) SEP =
      ["branch --list --all --format=\"%(upstream:remotename)",
        "%(refname)\""] := by decide

/-- C3: a failing stash-listing command never fails the request: the
handler behaves exactly as when the stash command returns empty text (the
`.catch(() => '')` substitution), and — spec-modelled stash correlator — an
empty stash listing yields an empty stash mapping.  The hypothesis rules
out the degenerate oracle collision in which the history command string is
itself the stash-listing command string. -/
theorem stash_failure_harmless :
    ∀ (f : String → String → String → String → Int → Parsed)
      (run : String → Except String String) (args : String)
      (fsr fb : Bool) (r : Int) (e : String),
      (∀ sr, final_log_args args sr ≠ stash_list_cmd) →
      git_log_handler f (override run stash_list_cmd (Except.error e))
          args fsr fb r =
        git_log_handler f (override run stash_list_cmd (Except.ok ""))
          args fsr fb r ∧
      stash_mapping "" = [] := by
  intro f run args fsr fb r e hargs
  refine ⟨?_, rfl⟩
  unfold git_log_handler
  rw [awaited_inputs_congr
    (override run stash_list_cmd (Except.error e))
    (override run stash_list_cmd (Except.ok "")) args fsr fb
    (fun c hc => by simp [override, hc])
    (by rfl)
    hargs]

/-- C3 witness: with a concrete oracle, a rejected stash command yields the
same handler result as an empty stash listing, and the empty stash listing
maps to the empty stash mapping. -/
theorem stash_failure_harmless_holds :
    git_log_handler (fun l b s _ _ =>
        { commits := [], refs := [⟨l ++ b ++ s, "", RefKind.stash⟩] })
      (override (fun _ => Except.ok "x") stash_list_cmd (Except.error "boom"))
      "" true true 0 =
      git_log_handler (fun l b s _ _ =>
        { commits := [], refs := [⟨l ++ b ++ s, "", RefKind.stash⟩] })
        (override (fun _ => Except.ok "x") stash_list_cmd (Except.ok ""))
        "" true true 0 ∧
    stash_mapping "" = [] :=
  stash_failure_harmless
    (fun l b s _ _ =>
      { commits := [], refs := [⟨l ++ b ++ s, "", RefKind.stash⟩] })
    (fun _ => Except.ok "x") "" true true 0 "boom"
    (fun sr => by
      have h : final_log_args "" sr = "" := rfl
      rw [h]; decide)

/-- C4: parse runs only after all three raw inputs are awaited and joined:
the handler's value is the image of the joined triple under the
empty-check/parse step, and when the join fails the handler fails with the
join's error, identically for every parse function — parse is never
reached with missing inputs. -/
theorem parse_only_after_join :
    ∀ (f g : String → String → String → String → Int → Parsed)
      (run : String → Except String String) (args : String)
      (fsr fb : Bool) (r : Int),
      git_log_handler f run args fsr fb r =
        (awaited_inputs run args fsr fb).map
          (fun t => git_log_core f t.1 t.2.1 t.2.2 SEP r) ∧
      (∀ e, awaited_inputs run args fsr fb = Except.error e →
        git_log_handler f run args fsr fb r = Except.error e ∧
        git_log_handler f run args fsr fb r =
          git_log_handler g run args fsr fb r) := by
  intro f g run args fsr fb r
  constructor
  · cases h : awaited_inputs run args fsr fb with
    | ok t => simp [git_log_handler, h, Except.map]
    | error e => simp [git_log_handler, h, Except.map]
  · intro e he
    constructor
    · simp [git_log_handler, he]
    · simp [git_log_handler, he]

/-- C4 witness: when the stash-hash prefetch rejects, the join rejects and
the handler returns that rejection for a non-trivial parse function. -/
theorem parse_only_after_join_holds :
    awaited_inputs (fun _ => Except.error "boom") "x" true false =
      Except.error "boom" ∧
    git_log_handler (fun l _ _ _ _ =>
        { commits := [], refs := [⟨l, "", RefKind.tag⟩] })
      (fun _ => Except.error "boom") "x" true false 0 =
      Except.error "boom" :=
  ⟨rfl,
    ((parse_only_after_join
      (fun l _ _ _ _ => { commits := [], refs := [⟨l, "", RefKind.tag⟩] })
      (fun _ _ _ _ _ => { commits := [], refs := [] })
      (fun _ => Except.error "boom") "x" true false 0).2 "boom" rfl).1⟩

/-- C5: the pretty-format the handler splices into the history command
emits, per commit record, the separator token followed by exactly the
seven fields %H (full hash), %h (short hash), %aN (author name), %aE
(author email), %ad (author date), %D (decoration string), %s (subject),
in this order, each adjacent pair separated by the same separator token. -/
theorem pretty_format_seven_fields :
    split_on_str (ext_format SEP) SEP =
      ["", "%H", "%h", "%aN", "%aE", "%ad", "%D", "%s"] ∧
    substitute_pretty " --pretty={EXT_FORMAT}" SEP =
      " --pretty=format:\"" ++ ext_format SEP ++ "\"" := by
  constructor
  · decide
  · decide

/-- C6: with non-empty log text the handler invokes parse with exactly the
five arguments (log_text, branch_text, stash_text, separator, curve_radius)
in this order, and returns its result unchanged to the requester. -/
theorem parse_five_args_result_unchanged :
    ∀ (f : String → String → String → String → Int → Parsed)
      (run : String → Except String String) (args : String)
      (fsr fb : Bool) (r : Int) (L B S : String),
      awaited_inputs run args fsr fb = Except.ok (L, B, S) → L ≠ "" →
      git_log_handler f run args fsr fb r = Except.ok (f L B S SEP r) := by
  intro f run args fsr fb r L B S h hL
  simp [git_log_handler, h, git_log_core, hL]

/-- C6 witness: a concrete oracle with non-empty log text makes the handler
return exactly the parse function's value on the three awaited strings, the
separator and the radius. -/
theorem parse_five_args_result_unchanged_holds :
    git_log_handler (fun l b s sep _ =>
        { commits := [], refs := [⟨l ++ b ++ s ++ sep, "", RefKind.local_branch⟩] })
      (fun _ => Except.ok "x") "" false false 7 =
      Except.ok ({ commits := [], refs := [⟨"x" ++ "" ++ "x" ++ SEP, "", RefKind.local_branch⟩] } : Parsed) :=
  parse_five_args_result_unchanged
    (fun l b s sep _ =>
      { commits := [], refs := [⟨l ++ b ++ s ++ sep, "", RefKind.local_branch⟩] })
    (fun _ => Except.ok "x") "" false false 7 "x" "" "x" (by rfl) (by decide)

/-- C7: parse is deterministic and re-entrant — equal argument tuples give
equal results, and in any sequence of calls each call's result is parse of
its own arguments, independent of anything that ran before or after (each
call folds from a fresh, empty LaneTrack; no state is threaded between
calls). -/
theorem parse_deterministic_reentrant :
    ∀ (a b : ParseArgs), (a = b → parse_call a = parse_call b) ∧
      ∀ (pre post : List ParseArgs),
        parse_calls (pre ++ a :: post) =
          parse_calls pre ++ parse_call a :: parse_calls post := by
  intro a b
  refine ⟨fun h => by rw [h], fun pre post => ?_⟩
  simp [parse_calls]

/-- C7 witness: two equal concrete calls agree, and a call surrounded by
other calls returns its own result. -/
theorem parse_deterministic_reentrant_holds :
    parse_call ⟨"", "", "", SEP, 10⟩ = parse_call ⟨"", "", "", SEP, 10⟩ ∧
    parse_calls ([⟨"a", "", "", SEP, 0⟩] ++ ⟨"", "", "", SEP, 10⟩ :: []) =
      parse_calls [⟨"a", "", "", SEP, 0⟩] ++
        parse_call ⟨"", "", "", SEP, 10⟩ :: parse_calls [] :=
  ⟨(parse_deterministic_reentrant ⟨"", "", "", SEP, 10⟩ ⟨"", "", "", SEP, 10⟩).1 rfl,
    (parse_deterministic_reentrant ⟨"", "", "", SEP, 10⟩ ⟨"", "", "", SEP, 10⟩).2
      [⟨"a", "", "", SEP, 0⟩] []⟩

lemma lookup_map_erase_self {β : Type} (m : List (Nat × β)) (k : Nat) :
    (map_erase m k).lookup k = none := by
  induction m with
  | nil => rfl
  | cons p rest ih =>
    obtain ⟨pk, pv⟩ := p
    by_cases h : pk = k
    · simpa [map_erase, h] using ih
    · have h2 : (k == pk) = false := by simp [Ne.symm h]
      simp [map_erase, h, List.lookup, h2] at ih ⊢
      exact ih

lemma lookup_map_insert_self {β : Type} (m : List (Nat × β)) (k : Nat)
    (v : β) : (map_insert m k v).lookup k = some v := by
  simp [map_insert, List.lookup]

lemma handle_response_counter (s : BridgeState) (m : RespMessage)
    (s' : BridgeState) (o : Option (Nat × RespMessage))
    (h : handle_response s m = Except.ok (s', o)) :
    s'.message_id_counter = s.message_id_counter := by
  unfold handle_response at h
  split at h
  · simp at h
  · split at h
    · split at h
      · simp only [Except.ok.injEq, Prod.mk.injEq] at h
        rw [← h.1]
      · simp only [Except.ok.injEq, Prod.mk.injEq] at h
        rw [← h.1]
    · simp only [Except.ok.injEq, Prod.mk.injEq] at h
      rw [← h.1]

lemma bridge_step_deliver (s : BridgeState) (m : RespMessage) :
    (bridge_step s (BridgeEvent.deliver m)).1.message_id_counter =
      s.message_id_counter ∧
    (bridge_step s (BridgeEvent.deliver m)).2 = none := by
  cases hr : handle_response s m with
  | ok r =>
    have h1 : bridge_step s (BridgeEvent.deliver m) = (r.1, none) := by
      simp [bridge_step, hr]
    rw [h1]
    exact ⟨handle_response_counter s m r.1 r.2 (by rw [hr]), rfl⟩
  | error e =>
    have h1 : bridge_step s (BridgeEvent.deliver m) = (s, none) := by
      simp [bridge_step, hr]
    rw [h1]
    exact ⟨rfl, rfl⟩

lemma bridge_run_ids (es : List BridgeEvent) :
    ∀ s : BridgeState,
      (∀ id ∈ (bridge_run s es).2, s.message_id_counter < id) ∧
      ((bridge_run s es).2).Nodup := by
  induction es with
  | nil => intro s; simp [bridge_run]
  | cons e rest ih =>
    intro s
    cases e with
    | send h =>
      obtain ⟨hlt, hnd⟩ := ih (bridge_step s (BridgeEvent.send h)).1
      have hc : (bridge_step s (BridgeEvent.send h)).1.message_id_counter =
          s.message_id_counter + 1 := rfl
      rw [hc] at hlt
      constructor
      · intro id hid
        simp [bridge_run, bridge_step, exchange_send] at hid
        rcases hid with hid | hid
        · omega
        · have := hlt id hid
          omega
      · simp only [bridge_run]
        refine List.Nodup.cons ?_ hnd
        intro hmem
        have hm2 : s.message_id_counter + 1 ∈
            (bridge_run (bridge_step s (BridgeEvent.send h)).1 rest).2 := by
          simpa [bridge_step, exchange_send] using hmem
        have := hlt _ hm2
        omega
    | deliver m =>
      obtain ⟨hlt, hnd⟩ := ih (bridge_step s (BridgeEvent.deliver m)).1
      obtain ⟨hc, hnone⟩ := bridge_step_deliver s m
      rw [hc] at hlt
      constructor
      · intro id hid
        simp only [bridge_run, hnone, Option.toList_none, List.nil_append]
          at hid
        exact hlt id hid
      · simpa [bridge_run, hnone] using hnd

/-- C8: every `exchange_message` call increments the id counter before
sending and the posted request carries the new counter value as its id,
with the resolver registered under it, so the requests sent along any
event trace carry pairwise-distinct ids; the window message listener
invokes exactly the handler registered under the response's own id,
deletes it on dispatch, and a further response with the same id throws
instead of invoking anything — each request's resolver fires at most once,
and only for the response bearing its own id. -/
theorem bridge_distinct_ids_at_most_once :
    (∀ (s : BridgeState) (h : Nat),
      (exchange_send s h).2 = s.message_id_counter + 1 ∧
      (exchange_send s h).1.message_id_counter = s.message_id_counter + 1 ∧
      ((exchange_send s h).1.response_handlers).lookup
        (s.message_id_counter + 1) = some h) ∧
    (∀ (s : BridgeState) (es : List BridgeEvent),
      ((bridge_run s es).2).Nodup) ∧
    (∀ (s : BridgeState) (m : RespMessage) (s' : BridgeState)
      (hd : Nat) (d : RespMessage),
      handle_response s m = Except.ok (s', some (hd, d)) →
      (s.response_handlers).lookup m.id = some hd ∧ d.id = m.id ∧
      (s'.response_handlers).lookup m.id = none ∧
      ∀ m2 : RespMessage, m2.id = m.id →
        ∃ err, handle_response s' m2 = Except.error err) := by
  refine ⟨?_, ?_, ?_⟩
  · intro s h
    exact ⟨rfl, rfl, lookup_map_insert_self s.response_handlers _ h⟩
  · intro s es
    exact (bridge_run_ids es s).2
  · intro s m s' hd d hok
    unfold handle_response at hok
    split at hok
    next => simp at hok
    next handler hl =>
      split at hok
      next hc =>
        split at hok
        next ht =>
          simp only [Except.ok.injEq, Prod.mk.injEq, Option.some.injEq]
            at hok
          obtain ⟨hs, hhd, hdm⟩ := hok
          subst hs
          subst hhd
          subst hdm
          exact ⟨hl, rfl, lookup_map_erase_self _ _,
            fun m2 hm2 =>
              ⟨"unhandled message response id: " ++ toString m.id,
                by simp [handle_response, hm2, lookup_map_erase_self]⟩⟩
        next ht => simp at hok
      next hc =>
        simp only [Except.ok.injEq, Prod.mk.injEq, Option.some.injEq] at hok
        obtain ⟨hs, hhd, hdm⟩ := hok
        subst hs
        subst hhd
        subst hdm
        exact ⟨hl, rfl, lookup_map_erase_self _ _,
          fun m2 hm2 =>
            ⟨"unhandled message response id: " ++ toString m.id,
              by simp [handle_response, hm2, lookup_map_erase_self]⟩⟩

/-- C8 witness: delivering a concrete response to a bridge with one
registered handler invokes that handler, removes the registration, and any
second response with the same id throws. -/
theorem bridge_distinct_ids_at_most_once_holds :
    (([(1, 7)] : List (Nat × Nat)).lookup 1 = some 7) ∧
    (⟨1, some ["x"], none, none, none⟩ : RespMessage).id = 1 ∧
    (([] : List (Nat × Nat)).lookup 1 = none) ∧
    (∀ m2 : RespMessage, m2.id = 1 →
      ∃ err, handle_response ⟨5, [], []⟩ m2 = Except.error err) :=
  bridge_distinct_ids_at_most_once.2.2 ⟨5, [(1, 7)], []⟩
    ⟨1, some ["x"], none, none, none⟩ ⟨5, [], []⟩ 7
    ⟨1, some ["x"], none, none, none⟩ (by rfl)

/-- C9: every request routed through the helper `h` is answered by exactly
one `response-to-web` message carrying the request's id; when the
command's function throws, the response's error field holds the error's
message (or the error value itself when the message is empty) and its data
stays unset; otherwise the data holds the function's result and no error
field is set. -/
theorem h_exactly_one_response :
    ∀ (message_id : Nat) (func : Except JSError (List String)),
      (h_posts message_id func).length = 1 ∧
      ∀ resp ∈ h_posts message_id func,
        resp.id = message_id ∧
        (∀ e, func = Except.error e →
          resp.error = some (error_payload e) ∧ resp.data = none) ∧
        (∀ d, func = Except.ok d →
          resp.data = some d ∧ resp.error = none) := by
  intro message_id func
  cases func with
  | ok d => simp [h_posts]
  | error e => simp [h_posts]

/-- C9 witness: the single response to a request whose function throws an
empty-message error carries the error value itself and no data. -/
theorem h_exactly_one_response_holds :
    (⟨3, none, some (Sum.inr ⟨""⟩), none, none⟩ : RespMessage).error =
      some (error_payload ⟨""⟩) ∧
    (⟨3, none, some (Sum.inr ⟨""⟩), none, none⟩ : RespMessage).data = none :=
  ((h_exactly_one_response 3 (Except.error ⟨""⟩)).2
    ⟨3, none, some (Sum.inr ⟨""⟩), none, none⟩ (by decide)).2.1 ⟨""⟩ rfl

/-- C10: `exchange_message` throws exactly when the matching response's
error field is non-empty (present and not the empty string); otherwise it
resolves with exactly the response's data field. -/
theorem exchange_throws_iff_error :
    ∀ resp : RespMessage,
      ((∃ err, exchange_resolve resp = Except.error err) ↔
        (resp.error ≠ none ∧ resp.error ≠ some (Sum.inl ""))) ∧
      ((resp.error = none ∨ resp.error = some (Sum.inl "")) →
        exchange_resolve resp = Except.ok resp.data) := by
  intro resp
  rcases h : resp.error with _ | v
  · simp [exchange_resolve, h]
  · by_cases hv : v = Sum.inl ""
    · simp [exchange_resolve, h, hv]
    · simp [exchange_resolve, h, hv]

/-- C10 witness: a response with no error field resolves with its data. -/
theorem exchange_throws_iff_error_holds :
    exchange_resolve ⟨1, some ["d"], none, none, none⟩ =
      Except.ok (some ["d"]) :=
  (exchange_throws_iff_error ⟨1, some ["d"], none, none, none⟩).2
    (Or.inl rfl)
